import Mathlib

/-!
Verification of the cross-format document rendering pipeline of the
org_base repository (scripts/docx_converter.py and
scripts/document_converter.py) against its natural-language
specification.  The Python functions are shallowly embedded as
executable Lean functions over `List Char`; the specific regular
expressions appearing in the source are translated into specialised
scanning functions that reproduce the leftmost, non-overlapping,
backtracking semantics of the Python `re` module for exactly those
patterns.
-/

/-- Character strings are modelled as lists of characters; Python `str`
values are immutable, so a pure functional model is faithful. -/
abbrev Str := List Char

/-- Whitespace test matching the character class of the `\s` regex atom
and of `str.strip` and `str.split` for the characters that occur in this
pipeline (ASCII whitespace plus the no-break space produced by decoding
the nbsp entity). -/
def isWs (c : Char) : Bool :=
  c = ' ' || c = '\t' || c = '\n' || c = '\r' || c = '\x0b' || c = '\x0c' || c = '\xa0'

/-- Python `str.strip()`: remove leading and trailing whitespace. -/
def pyStrip (s : Str) : Str :=
  ((s.dropWhile isWs).reverse.dropWhile isWs).reverse

/-- Python `str.split()` with no argument (fuel-driven so that the
definition reduces in the kernel): split on runs of whitespace,
discarding empty pieces. -/
def pySplitWsAux : Nat → Str → List Str
  | 0, _ => []
  | _, [] => []
  | fuel + 1, c :: rest =>
    if isWs c then pySplitWsAux fuel rest
    else
      (c :: rest.takeWhile (fun d => !isWs d)) ::
        pySplitWsAux fuel (rest.dropWhile (fun d => !isWs d))

/-- Python `str.split()` with no argument. -/
def pySplitWs (s : Str) : List Str := pySplitWsAux s.length s

/-- Python `in` on strings: contiguous substring test. -/
def containsSub (pat s : Str) : Bool :=
  match s with
  | [] => pat.isPrefixOf ([] : Str)
  | _ :: rest => pat.isPrefixOf s || containsSub pat rest

/-- Python `str.lower()` restricted to ASCII letters, which is all the
pipeline ever feeds to a case-insensitive comparison. -/
def lowerStr (s : Str) : Str := s.map Char.toLower

/-- Python `str.split(sep)` for a single-character separator, keeping
empty pieces. -/
def splitOnChar (sep : Char) : Str → List Str
  | [] => [[]]
  | c :: rest =>
    if c = sep then [] :: splitOnChar sep rest
    else
      match splitOnChar sep rest with
      | [] => [[c]]
      | t :: ts => (c :: t) :: ts

/-- Python slice `s[a:-b]` for non-negative `a`, `b` (empty when the
bounds cross, exactly as in Python). -/
def pySlice (a b : Nat) (s : Str) : Str :=
  let t := s.drop a
  t.take (t.length - b)

/-- Length of the run of underscores at the head of the string; used to
model the greedy `__+` regex atom (the kernel of the sentinel-cleanup
patterns in `_add_formatted_text_from_html`). -/
def usRun : Str → Nat
  | [] => 0
  | c :: rest => if c = '_' then usRun rest + 1 else 0

/-- Membership in the regex character class `[A-Z_/]` used by the three
sentinel-cleanup patterns. -/
def inCls (c : Char) : Bool :=
  ('A' ≤ c && c ≤ 'Z') || c = '_' || c = '/'

/-- The sentinel-word alternation `(BOLD|ITALIC|/BOLD|/ITALIC)` of the
cleanup patterns: length of the word matching at the head, if any.  The
four words have pairwise distinct two-character prefixes, so at most one
alternative matches at a given position. -/
def wordAt (s : Str) : Option Nat :=
  if "BOLD".toList.isPrefixOf s then some 4
  else if "ITALIC".toList.isPrefixOf s then some 6
  else if "/BOLD".toList.isPrefixOf s then some 5
  else if "/ITALIC".toList.isPrefixOf s then some 7
  else none

/-- Tail of cleanup patterns 1 and 2: the lazy `[A-Z_/]*?` followed by
greedy `__+`.  Returns the number of characters consumed: the lazy part
stops at the first position carrying two consecutive underscores, and
the greedy `__+` then swallows that whole underscore run. -/
def seekT : Str → Option Nat
  | [] => none
  | '_' :: '_' :: rest => some (usRun ('_' :: '_' :: rest))
  | c :: rest => if inCls c then (seekT rest).map (· + 1) else none

/-- Middle of cleanup patterns 1 and 2: lazy `[A-Z_/]*?` up to the first
sentinel word whose own tail (`seekT`) also succeeds; on tail failure
the word position is absorbed into the lazy prefix and the scan
continues, exactly as the backtracking engine does. -/
def seekW : Str → Option Nat
  | [] => none
  | c :: rest =>
    match wordAt (c :: rest) with
    | some w =>
      match seekT ((c :: rest).drop w) with
      | some k => some (w + k)
      | none => if inCls c then (seekW rest).map (· + 1) else none
    | none => if inCls c then (seekW rest).map (· + 1) else none

/-- Middle of cleanup pattern 3: lazy `[A-Z_/]*?` up to the first
sentinel word; the trailing lazy `[A-Z_/]*?` of that pattern always
matches the empty string, so the match ends at the word. -/
def seek3 : Str → Option Nat
  | [] => none
  | c :: rest =>
    match wordAt (c :: rest) with
    | some w => some w
    | none => if inCls c then (seek3 rest).map (· + 1) else none

/-- Match length at the head of the string for cleanup pattern 1,
`__+[A-Z_/]*?(BOLD|ITALIC|/BOLD|/ITALIC)[A-Z_/]*?__+`. -/
def pat1At (s : Str) : Option Nat :=
  let u := usRun s
  if 2 ≤ u then (seekW (s.drop u)).map (· + u) else none

/-- Match length at the head for cleanup pattern 2,
`[A-Z_/]*?(BOLD|ITALIC|/BOLD|/ITALIC)[A-Z_/]*?__+`. -/
def pat2At (s : Str) : Option Nat := seekW s

/-- Match length at the head for cleanup pattern 3,
`__+[A-Z_/]*?(BOLD|ITALIC|/BOLD|/ITALIC)[A-Z_/]*?`. -/
def pat3At (s : Str) : Option Nat :=
  let u := usRun s
  if 2 ≤ u then (seek3 (s.drop u)).map (· + u) else none

/-- One pass of `re.sub(pattern, replacement-free-removal, s)`: leftmost
non-overlapping matches are deleted and scanning resumes after each
match, driven by fuel so the definition reduces in the kernel. -/
def scanSubAux (m : Str → Option Nat) : Nat → Str → Str
  | 0, s => s
  | fuel + 1, s =>
    match s with
    | [] => []
    | c :: rest =>
      match m s with
      | some n => if n = 0 then c :: scanSubAux m fuel rest else scanSubAux m fuel (s.drop n)
      | none => c :: scanSubAux m fuel rest

/-- Remove every leftmost non-overlapping match of `m` from `s`. -/
def scanSub (m : Str → Option Nat) (s : Str) : Str := scanSubAux m s.length s

/-- The three cascading sentinel-cleanup substitutions applied, in
source order, by every damaged-marker branch of
`_add_formatted_text_from_html` and `_add_formatted_text_to_para`. -/
def cleanup3 (s : Str) : Str :=
  scanSub pat3At (scanSub pat2At (scanSub pat1At s))

/-- Model of `re.sub(r'\s+', ' ', s)`: every whitespace run collapses to
one plain space. -/
def collapseWs : Str → Str
  | [] => []
  | [a] => [if isWs a then ' ' else a]
  | a :: b :: r =>
    if isWs a && isWs b then collapseWs (b :: r)
    else (if isWs a then ' ' else a) :: collapseWs (b :: r)

/-- The terminal normalisation `re.sub(r'\s+', ' ', s).strip()` shared
by all cleanup branches. -/
def collapseStrip (s : Str) : Str := pyStrip (collapseWs s)

/-- Model of `re.sub(r'^_+\s*|\s*_+$', '', s)`: one leading group of
underscores plus following whitespace, and one trailing group of
whitespace plus ending underscores, are removed (each at most once, as
the single pass of the engine does). -/
def edgeStrip (s : Str) : Str :=
  let s1 := if s.head? = some '_' then
    (s.dropWhile (fun c => c = '_')).dropWhile isWs else s
  if s1.reverse.head? = some '_' then
    ((s1.reverse.dropWhile (fun c => c = '_')).dropWhile isWs).reverse
  else s1

/-- Damaged-marker cleanup with the edge-underscore strip (source lines
476-481 and 522-528 of docx_converter.py). -/
def cleanFull (s : Str) : Str := collapseStrip (edgeStrip (cleanup3 s))

/-- Cleanup without the edge-underscore strip (source lines 489-492 and
553-556 of docx_converter.py). -/
def cleanBasic (s : Str) : Str := collapseStrip (cleanup3 s)

/-- The opening bold sentinel written by the tokenizer. -/
def boldOpen : Str := "__BOLD__".toList

/-- The closing bold sentinel. -/
def boldClose : Str := "__/BOLD__".toList

/-- The opening italic sentinel. -/
def italOpen : Str := "__ITALIC__".toList

/-- The closing italic sentinel. -/
def italClose : Str := "__/ITALIC__".toList

/-- Index of the first occurrence of `pat` in `s`, if any. -/
def findSubIdx (pat : Str) : Str → Option Nat
  | [] => if pat.isPrefixOf ([] : Str) then some 0 else none
  | s@(_ :: rest) =>
    if pat.isPrefixOf s then some 0
    else (findSubIdx pat rest).map (· + 1)

/-- Match length at head for the split pattern
`(__BOLD__.*?__/BOLD__|__ITALIC__.*?__/ITALIC__)` (DOTALL): the opening
sentinel followed, via a non-greedy gap, by the first closing sentinel
that starts at or after the end of the opener. -/
def splitMatchAt (s : Str) : Option Nat :=
  if boldOpen.isPrefixOf s then
    match findSubIdx boldClose (s.drop 8) with
    | some i => some (8 + i + 9)
    | none => none
  else if italOpen.isPrefixOf s then
    match findSubIdx italClose (s.drop 10) with
    | some i => some (10 + i + 11)
    | none => none
  else none

/-- Leftmost position and length of a split-pattern match. -/
def findSplit : Str → Option (Nat × Nat)
  | [] => none
  | s@(_ :: rest) =>
    match splitMatchAt s with
    | some n => some (0, n)
    | none => (findSplit rest).map (fun pr => (pr.1 + 1, pr.2))

/-- Fuel-driven worker for `re.split` with one capture group: the result
alternates unmatched gaps and matched segments, keeping empty gaps, as
the Python function does. -/
def splitFmtAux : Nat → Str → List Str
  | 0, s => [s]
  | fuel + 1, s =>
    match findSplit s with
    | none => [s]
    | some (p, n) =>
      s.take p :: (s.drop p).take n :: splitFmtAux fuel (s.drop (p + n))

/-- Model of
`re.split(r'(__BOLD__.*?__/BOLD__|__ITALIC__.*?__/ITALIC__)', text)`. -/
def splitFmt (s : Str) : List Str := splitFmtAux s.length s

/-- Match length at head for a literal alternation such as
`__P__|__/P__` (alternatives tried in order). -/
def literalAlt (alts : List Str) (s : Str) : Option Nat :=
  alts.findSome? fun a => if a.isPrefixOf s then some a.length else none

/-- Match length at head for the service-marker pattern
`__(alt1|alt2|...)__`: two underscores, one alternative (tried in
order, with backtracking into later alternatives when the trailing
underscores are missing), two underscores. -/
def markerAt (alts : List Str) (s : Str) : Option Nat :=
  if ('_' :: '_' :: []).isPrefixOf s then
    alts.findSome? fun a =>
      if a.isPrefixOf (s.drop 2) && ('_' :: '_' :: []).isPrefixOf (s.drop (2 + a.length))
      then some (2 + a.length + 2) else none
  else none

/-- Alternatives of the all-service-marker pattern at docx_converter.py
line 456, in source order, with `H[1-6]` and `/H[1-6]` expanded. -/
def blockAltsAll : List Str :=
  ["P".toList, "/P".toList, "LI".toList, "/LI".toList,
   "H1".toList, "H2".toList, "H3".toList, "H4".toList, "H5".toList, "H6".toList,
   "/H1".toList, "/H2".toList, "/H3".toList, "/H4".toList, "/H5".toList, "/H6".toList,
   "UL_START".toList, "UL_END".toList, "OL_START".toList, "OL_END".toList]

/-- One formatted text run of the output document: python-docx run text
plus its bold/italic flags (a flag never assigned is modelled false). -/
structure Run where
  text : Str
  bold : Bool
  italic : Bool
deriving DecidableEq, Repr

/-- Emit one unformatted-flag-controlled run when the cleaned text is
non-empty, as every `if clean_text: para.add_run(...)` site does. -/
def runIf (c : Str) (b i : Bool) : List Run :=
  if c = [] then [] else [⟨c, b, i⟩]

/-- The condition `'__BOLD__' in content or '__ITALIC__' in content or
'__/BOLD__' in content or '__/ITALIC__' in content` guarding the
damaged-marker branches. -/
def hasSentinelIn (content : Str) : Bool :=
  containsSub boldOpen content || containsSub italOpen content ||
  containsSub boldClose content || containsSub italClose content

/-- Model of `_add_formatted_text_to_para` (docx_converter.py lines
532-562): recursive reconstruction of nested runs with accumulated
flags; fuel bounds the recursion depth (each recursive call strips at
least the two enclosing sentinels, so fuel equal to the text length is
always sufficient). -/
def toParaAux : Nat → Str → Bool → Bool → List Run
  | 0, _, _, _ => []
  | fuel + 1, text, fb, fi =>
    (splitFmt text).foldr (fun part acc =>
      (if part = [] then []
       else if boldOpen.isPrefixOf part && boldClose.isSuffixOf part then
         let content := pySlice 8 9 part
         if pyStrip content ≠ [] then toParaAux fuel content true fi else []
       else if italOpen.isPrefixOf part && italClose.isSuffixOf part then
         let content := pySlice 10 11 part
         if pyStrip content ≠ [] then toParaAux fuel content fb true else []
       else runIf (cleanBasic part) fb fi) ++ acc) []

/-- Handling of one split segment inside `_add_formatted_text_from_html`
(docx_converter.py lines 464-530). -/
def fromHtmlPart (fuel : Nat) (part : Str) : List Run :=
  if part = [] then []
  else if boldOpen.isPrefixOf part && boldClose.isSuffixOf part then
    let content := pySlice 8 9 part
    if hasSentinelIn content then runIf (cleanFull part) false false
    else
      let cs := pyStrip content
      if cs ≠ [] ∧ cs.head? ≠ some '_' ∧ 1 < cs.length then toParaAux fuel content true false
      else runIf (cleanBasic part) false false
  else if italOpen.isPrefixOf part && italClose.isSuffixOf part then
    let content := pySlice 10 11 part
    if hasSentinelIn content then runIf (cleanFull part) false false
    else
      let cs := pyStrip content
      if cs ≠ [] ∧ cs.head? ≠ some '_' ∧ 1 < cs.length then toParaAux fuel content false true
      else runIf (cleanBasic part) false false
  else runIf (cleanFull part) false false

/-- Model of `_add_formatted_text_from_html` (docx_converter.py lines
448-530): service markers are removed, the text is split on properly
paired sentinels, and each segment is turned into runs. -/
def addFormattedTextFromHtml (text : Str) : List Run :=
  let t := scanSub (markerAt blockAltsAll) text
  (splitFmt t).foldr (fun part acc => fromHtmlPart t.length part ++ acc) []

/-- Case-insensitive prefix test against a lowercase pattern. -/
def startsWithCI (pat : Str) (s : Str) : Bool :=
  lowerStr (s.take pat.length) = pat

/-- Generic single-pass `re.sub` with a replacement computed from the
match: leftmost non-overlapping matches, fuel-driven. -/
def scanRepAux (m : Str → Option (Nat × Str)) : Nat → Str → Str
  | 0, s => s
  | fuel + 1, s =>
    match s with
    | [] => []
    | c :: rest =>
      match m s with
      | some (n, rep) =>
        if n = 0 then c :: scanRepAux m fuel rest
        else rep ++ scanRepAux m fuel (s.drop n)
      | none => c :: scanRepAux m fuel rest

/-- Replace every leftmost non-overlapping match of `m` in `s`. -/
def scanRep (m : Str → Option (Nat × Str)) (s : Str) : Str :=
  scanRepAux m s.length s

/-- Match length at head for an opening tag pattern `<tag[^>]*>`
(IGNORECASE): the literal `<tag`, any run of non-`>` characters, and the
closing `>`. -/
def openTagAt (tag : Str) (s : Str) : Option Nat :=
  let pre := '<' :: tag
  if startsWithCI pre s then
    let rest := s.drop pre.length
    let k := (rest.takeWhile (fun c => c ≠ '>')).length
    if (rest.drop k).head? = some '>' then some (pre.length + k + 1) else none
  else none

/-- Index of the first case-insensitive occurrence of a lowercase
literal pattern. -/
def findCI (pat : Str) : Str → Option Nat
  | [] => none
  | s@(_ :: rest) =>
    if startsWithCI pat s then some 0
    else (findCI pat rest).map (· + 1)

/-- Match at head for the paired pattern `<tag[^>]*>(.*?)</tag>`
(DOTALL, IGNORECASE): returns match length, group offset and group
length.  The non-greedy group ends at the first closing tag after the
opener. -/
def pairTagAt (tag : Str) (s : Str) : Option (Nat × Nat × Nat) :=
  match openTagAt tag s with
  | some o =>
    let close := '<' :: '/' :: (tag ++ ['>'])
    match findCI close (s.drop o) with
    | some g => some (o + g + close.length, o, g)
    | none => none
  | none => none

/-- Model of `re.sub(r'<tag[^>]*>(.*?)</tag>', pre + group + post, s)`. -/
def subPairTag (tag pre post : Str) (s : Str) : Str :=
  scanRep (fun t =>
    (pairTagAt tag t).map (fun pr => (pr.1, pre ++ (t.drop pr.2.1).take pr.2.2 ++ post))) s

/-- Model of `re.sub(r'<tag[^>]*>', rep, s)` for a bare opening tag. -/
def subOpenTag (tag rep : Str) (s : Str) : Str :=
  scanRep (fun t => (openTagAt tag t).map (fun n => (n, rep))) s

/-- Model of a case-insensitive literal substitution such as
`re.sub(r'</ul>', rep, s)`. -/
def subLiteralCI (pat rep : Str) (s : Str) : Str :=
  scanRep (fun t => if startsWithCI pat t then some (pat.length, rep) else none) s

/-- Match length at head for the stray-tag pattern `<[^>]+>`. -/
def anyTagAt (s : Str) : Option Nat :=
  match s with
  | '<' :: rest =>
    let k := (rest.takeWhile (fun c => c ≠ '>')).length
    if 1 ≤ k ∧ (rest.drop k).head? = some '>' then some (k + 2) else none
  | _ => none

/-- Modelled from the spec: HTML entities are decoded by the external
Python standard library function `html.unescape`, which is not part of
this repository; the named and numeric entities that can reach this
pipeline are modelled (single pass, like the original). -/
def entityAt (s : Str) : Option (Nat × Str) :=
  if "&amp;".toList.isPrefixOf s then some (5, ['&'])
  else if "&lt;".toList.isPrefixOf s then some (4, ['<'])
  else if "&gt;".toList.isPrefixOf s then some (4, ['>'])
  else if "&quot;".toList.isPrefixOf s then some (6, ['"'])
  else if "&#39;".toList.isPrefixOf s then some (5, ['\''])
  else if "&nbsp;".toList.isPrefixOf s then some (6, ['\xa0'])
  else none

/-- Entity decoding pass. -/
def unescapeModel (s : Str) : Str := scanRep entityAt s

/-- Match length at head for `<table[^>]*>(.*?)</table>` (full match,
group 0). -/
def tableMatchAt (s : Str) : Option Nat :=
  match openTagAt "table".toList s with
  | some o =>
    match findCI "</table>".toList (s.drop o) with
    | some g => some (o + g + 8)
    | none => none
  | none => none

/-- `re.finditer` over the table pattern: list of (start, end, matched
text) on the original string. -/
def findTablesAux : Nat → Nat → Str → List (Nat × Nat × Str)
  | 0, _, _ => []
  | _ + 1, _, [] => []
  | fuel + 1, pos, s@(_ :: rest) =>
    match tableMatchAt s with
    | some n => (pos, pos + n, s.take n) :: findTablesAux fuel (pos + n) (s.drop n)
    | none => findTablesAux fuel (pos + 1) rest

/-- All table matches of the original html string. -/
def findTables (s : Str) : List (Nat × Nat × Str) := findTablesAux s.length 0 s

/-- The `__TABLE_i__` placeholder. -/
def tablePlaceholder (idx : Nat) : Str :=
  "__TABLE_".toList ++ Nat.toDigits 10 idx ++ "__".toList

/-- The extraction loop of `_simple_html_parse` (lines 310-314): each
match is replaced by its placeholder by slicing the CURRENT string with
the match positions of the ORIGINAL string, exactly as the source does
(including the resulting misalignment when several tables shift the
indices). -/
def extractFold : Str → Nat → List (Nat × Nat × Str) → Str
  | cur, _, [] => cur
  | cur, idx, (st, en, _) :: rest =>
    extractFold (cur.take st ++ tablePlaceholder idx ++ cur.drop en) (idx + 1) rest

/-- Python `str.replace(pat, rep)`: every occurrence, case sensitive. -/
def replaceAllSub (pat rep : Str) (s : Str) : Str :=
  scanRep (fun t => if pat ≠ [] ∧ pat.isPrefixOf t then some (pat.length, rep) else none) s

/-- Restore loop (lines 346-347): placeholders are put back by
`str.replace`. -/
def restoreTables : Str → Nat → List (Nat × Nat × Str) → Str
  | cur, _, [] => cur
  | cur, idx, (_, _, thtml) :: rest =>
    restoreTables (replaceAllSub (tablePlaceholder idx) thtml cur) (idx + 1) rest

/-- The sentinel-rewriting front half of `_simple_html_parse` (lines
309-347): table extraction, list/heading/paragraph/list-item and
bold/italic tag rewriting, stray-tag removal, entity decoding, table
restoration — in exactly the source order. -/
def tokenizeHtml (html : Str) : Str :=
  let ts := findTables html
  let s := extractFold html 0 ts
  let s := subOpenTag "ul".toList "\n__UL_START__\n".toList s
  let s := subLiteralCI "</ul>".toList "\n__UL_END__\n".toList s
  let s := subOpenTag "ol".toList "\n__OL_START__\n".toList s
  let s := subLiteralCI "</ol>".toList "\n__OL_END__\n".toList s
  let s := subPairTag "h1".toList "__H1__".toList "__/H1__".toList s
  let s := subPairTag "h2".toList "__H2__".toList "__/H2__".toList s
  let s := subPairTag "h3".toList "__H3__".toList "__/H3__".toList s
  let s := subPairTag "h4".toList "__H4__".toList "__/H4__".toList s
  let s := subPairTag "p".toList "__P__".toList "__/P__".toList s
  let s := subPairTag "li".toList "__LI__".toList "__/LI__".toList s
  let s := subPairTag "strong".toList "__BOLD__".toList "__/BOLD__".toList s
  let s := subPairTag "b".toList "__BOLD__".toList "__/BOLD__".toList s
  let s := subPairTag "em".toList "__ITALIC__".toList "__/ITALIC__".toList s
  let s := subPairTag "i".toList "__ITALIC__".toList "__/ITALIC__".toList s
  let s := scanRep (fun t => (anyTagAt t).map (fun n => (n, []))) s
  let s := unescapeModel s
  restoreTables s 0 ts

/-- Match at head of `<tr[^>]*>(.*?)</tr>` returning (consumed length,
inner group). -/
def trMatchAt (s : Str) : Option (Nat × Str) :=
  match openTagAt "tr".toList s with
  | some o =>
    match findCI "</tr>".toList (s.drop o) with
    | some g => some (o + g + 5, (s.drop o).take g)
    | none => none
  | none => none

/-- `re.findall(r'<tr[^>]*>(.*?)</tr>', table_html)`: the inner html of
every row of the table. -/
def findTrsAux : Nat → Str → List Str
  | 0, _ => []
  | _ + 1, [] => []
  | fuel + 1, s@(_ :: rest) =>
    match trMatchAt s with
    | some (n, grp) => grp :: findTrsAux fuel (s.drop n)
    | none => findTrsAux fuel rest

/-- Raw inner html of each table row. -/
def parseTableRows (tableHtml : Str) : List Str := findTrsAux tableHtml.length tableHtml

/-- First position in the string where `</td>` or `</th>` matches, with
its length: the non-greedy end of the cell pattern (the closing tag
group of `<(td|th)[^>]*>(.*?)</(td|th)>` is matched independently of the
opening one, exactly as the source regex does). -/
def closeCellIdx : Str → Option Nat
  | [] => none
  | s@(_ :: rest) =>
    if startsWithCI "</td>".toList s || startsWithCI "</th>".toList s then some 0
    else (closeCellIdx rest).map (· + 1)

/-- Match at head of the cell pattern, returning (consumed length, cell
content group). -/
def cellMatchAt (s : Str) : Option (Nat × Str) :=
  match (openTagAt "td".toList s).orElse (fun _ => openTagAt "th".toList s) with
  | some o =>
    match closeCellIdx (s.drop o) with
    | some g => some (o + g + 5, (s.drop o).take g)
    | none => none
  | none => none

/-- `re.findall` over the cell pattern of one row. -/
def findCellsAux : Nat → Str → List Str
  | 0, _ => []
  | _ + 1, [] => []
  | fuel + 1, s@(_ :: rest) =>
    match cellMatchAt s with
    | some (n, grp) => grp :: findCellsAux fuel (s.drop n)
    | none => findCellsAux fuel rest

/-- Cell texts of one row: `unescape(cell[1].strip())` for each cell
match (docx_converter.py line 578). -/
def rowCells (row : Str) : List Str :=
  (findCellsAux row.length row).map (fun c => unescapeModel (pyStrip c))

/-- The header heuristic of line 579: `'th' in row.lower()` — a plain
substring test on the raw inner html of the row. -/
def rowIsHeader (row : Str) : Bool := containsSub "th".toList (lowerStr row)

/-- The per-row data of `_parse_table_html`: cell texts plus header
flag. -/
def tableData (tableHtml : Str) : List (List Str × Bool) :=
  (parseTableRows tableHtml).map (fun r => (rowCells r, rowIsHeader r))

/-- `max_cols`: maximum cell count across rows, starting from 0. -/
def maxColsOf (tableHtml : Str) : Nat :=
  (tableData tableHtml).foldl (fun m rc => max m rc.1.length) 0

/-- One rendered table cell: its assigned text, and whether the source
ran its bold-assignment loop over the runs of that cell (cells beyond
the row's own cell list are never assigned and keep the default empty
text). -/
structure TCell where
  text : Str
  boldApplied : Bool
deriving DecidableEq, Repr

/-- Rendering of one row into a table of `maxCols` columns (lines
589-598): assigned cells keep their text and are bolded when the row is
a header row or is the first row; missing cells stay empty and
untouched. -/
def renderRow (maxCols idx : Nat) (cells : List Str) (isHeader : Bool) : List TCell :=
  (cells.take maxCols).map (fun t => ⟨t, isHeader || idx = 0⟩) ++
    List.replicate (maxCols - (cells.take maxCols).length) ⟨[], false⟩

/-- Model of `_parse_table_html` (docx_converter.py lines 564-598):
`none` models the early returns that add no table object to the
document. -/
def renderTable (tableHtml : Str) : Option (List (List TCell)) :=
  if parseTableRows tableHtml = [] then none
  else if maxColsOf tableHtml = 0 then none
  else some ((tableData tableHtml).enum.map fun p => renderRow (maxColsOf tableHtml) p.1 p.2.1 p.2.2)

/-- Paragraph style names used by the list branches. -/
def bulletStyle : Str := "List Bullet".toList

/-- Numbered list style name. -/
def numberStyle : Str := "List Number".toList

/-- A document element produced by the assembler: native heading,
paragraph of runs, styled list item, or table. -/
inductive Elem where
  | heading (level : Nat) (text : Str)
  | para (runs : List Run)
  | listItem (style : Str) (runs : List Run)
  | table (rows : List (List TCell))
deriving DecidableEq, Repr

/-- Mutable state of the line loop of `_simple_html_parse`. -/
structure LoopSt where
  inList : Bool
  listStyle : Option Str
  lastWasEmpty : Bool
deriving DecidableEq, Repr

/-- Service-marker alternatives removed inside the heading branches
(pattern at lines 378-396). -/
def blockAltsNoH : List Str :=
  ["P".toList, "/P".toList, "LI".toList, "/LI".toList,
   "UL_START".toList, "UL_END".toList, "OL_START".toList, "OL_END".toList]

/-- Service-marker alternatives removed inside the list-item branch
(line 417). -/
def liAlts : List Str :=
  ["P".toList, "/P".toList,
   "H1".toList, "H2".toList, "H3".toList, "H4".toList, "H5".toList, "H6".toList,
   "/H1".toList, "/H2".toList, "/H3".toList, "/H4".toList, "/H5".toList, "/H6".toList,
   "UL_START".toList, "UL_END".toList, "OL_START".toList, "OL_END".toList]

/-- Service-marker alternatives removed inside the paragraph branch
(line 427). -/
def pAlts : List Str :=
  ["LI".toList, "/LI".toList,
   "H1".toList, "H2".toList, "H3".toList, "H4".toList, "H5".toList, "H6".toList,
   "/H1".toList, "/H2".toList, "/H3".toList, "/H4".toList, "/H5".toList, "/H6".toList,
   "UL_START".toList, "UL_END".toList, "OL_START".toList, "OL_END".toList]

/-- The literal pair `__Hn__|__/Hn__` of a heading branch. -/
def hTagAlts (n : Nat) : List Str :=
  ["__H".toList ++ Nat.toDigits 10 n ++ "__".toList,
   "__/H".toList ++ Nat.toDigits 10 n ++ "__".toList]

/-- Heading-branch text extraction (for example lines 377-379). -/
def headingText (n : Nat) (line : Str) : Str :=
  pyStrip (scanSub (markerAt blockAltsNoH) (scanSub (literalAlt (hTagAlts n)) line))

/-- List-item branch text extraction (lines 415-417). -/
def liText (line : Str) : Str :=
  pyStrip (scanSub (markerAt liAlts)
    (scanSub (literalAlt ["__LI__".toList, "__/LI__".toList]) line))

/-- Paragraph branch text extraction (lines 425-427). -/
def pText (line : Str) : Str :=
  pyStrip (scanSub (markerAt pAlts)
    (scanSub (literalAlt ["__P__".toList, "__/P__".toList]) line))

/-- Stop condition of the inner table-collection loop (line 364): a line
that does NOT carry a table placeholder and DOES contain the closing
table tag. -/
def tableStop (l : Str) : Bool :=
  !(containsSub "__TABLE_".toList l) && containsSub "</table>".toList l

/-- Splits the remaining lines at the first stop line, as the inner
`while` of the table branch does; `none` when the scan runs off the end
of the list, which in the source raises IndexError at `lines[j]`. -/
def splitAtStop : List Str → Option (List Str × Str × List Str)
  | [] => none
  | l :: rest =>
    if tableStop l then some ([], l, rest)
    else (splitAtStop rest).map (fun pr => (l :: pr.1, pr.2.1, pr.2.2))

/-- Blank-line branch update (docx_converter.py lines 438-444): the
branch only records that a blank was seen, and only outside lists; the
commented intention of emitting one separator paragraph has no
corresponding `add_paragraph` call, so nothing is emitted. -/
def blankStep (st : LoopSt) : LoopSt :=
  if !st.lastWasEmpty && !st.inList then { st with lastWasEmpty := true } else st

/-- The line-classification loop of `_simple_html_parse` (lines
349-446), as a recursion over the remaining lines; `none` models the
IndexError reachable from the table branch.  Branches appear in source
order. -/
def parseLines : Nat → List Str → LoopSt → Option (List Elem)
  | 0, _, _ => some []
  | _ + 1, [], _ => some []
  | fuel + 1, line :: rest, st =>
    if containsSub "__TABLE_".toList line || containsSub "<table".toList (lowerStr line) then
      match splitAtStop rest with
      | none => none
      | some pr =>
        let ttext := (pr.1 ++ [pr.2.1]).foldl (fun acc l => acc ++ '\n' :: l) line
        let elems := match renderTable ttext with
          | some t => [Elem.table t]
          | none => []
        (parseLines fuel pr.2.2 { st with lastWasEmpty := false }).map (elems ++ ·)
    else if containsSub "__H1__".toList line then
      let t := headingText 1 line
      if t ≠ [] then
        (parseLines fuel rest { st with lastWasEmpty := false }).map (Elem.heading 1 t :: ·)
      else parseLines fuel rest st
    else if containsSub "__H2__".toList line then
      let t := headingText 2 line
      if t ≠ [] then
        (parseLines fuel rest { st with lastWasEmpty := false }).map (Elem.heading 2 t :: ·)
      else parseLines fuel rest st
    else if containsSub "__H3__".toList line then
      let t := headingText 3 line
      if t ≠ [] then
        (parseLines fuel rest { st with lastWasEmpty := false }).map (Elem.heading 3 t :: ·)
      else parseLines fuel rest st
    else if containsSub "__H4__".toList line then
      let t := headingText 4 line
      if t ≠ [] then
        (parseLines fuel rest { st with lastWasEmpty := false }).map (Elem.heading 4 t :: ·)
      else parseLines fuel rest st
    else if containsSub "__UL_START__".toList line then
      parseLines fuel rest ⟨true, some bulletStyle, false⟩
    else if containsSub "__UL_END__".toList line || containsSub "__OL_END__".toList line then
      parseLines fuel rest ⟨false, none, false⟩
    else if containsSub "__OL_START__".toList line then
      parseLines fuel rest ⟨true, some numberStyle, false⟩
    else if containsSub "__LI__".toList line then
      let t := liText line
      if t ≠ [] then
        (parseLines fuel rest { st with lastWasEmpty := false }).map
          (Elem.listItem (st.listStyle.getD bulletStyle) (addFormattedTextFromHtml t) :: ·)
      else parseLines fuel rest st
    else if containsSub "__P__".toList line then
      let t := pText line
      if t ≠ [] then
        (parseLines fuel rest { st with lastWasEmpty := false }).map
          (Elem.para (addFormattedTextFromHtml t) :: ·)
      else parseLines fuel rest st
    else if pyStrip line ≠ [] ∧ ¬ ("__".toList.isPrefixOf line) then
      (parseLines fuel rest { st with lastWasEmpty := false }).map
        (Elem.para (addFormattedTextFromHtml (pyStrip line)) :: ·)
    else if pyStrip line = [] then
      parseLines fuel rest (blankStep st)
    else
      parseLines fuel rest st

/-- Model of `_simple_html_parse` (docx_converter.py lines 305-446):
sentinel tokenization followed by the line-classification loop. -/
def simpleHtmlParse (html : Str) : Option (List Elem) :=
  let t := tokenizeHtml html
  let lines := splitOnChar '\n' t
  parseLines lines.length lines ⟨false, none, false⟩

/-- Worker for `re.findall(r'- ([^\n]+)', s)`. -/
def findDashItemsAux : Nat → Str → List Str
  | 0, _ => []
  | _ + 1, [] => []
  | fuel + 1, s@(_ :: rest) =>
    if "- ".toList.isPrefixOf s then
      let c := (s.drop 2).takeWhile (fun ch => ch ≠ '\n')
      if c = [] then findDashItemsAux fuel rest
      else c :: findDashItemsAux fuel (s.drop (2 + c.length))
    else findDashItemsAux fuel rest

/-- `re.findall(r'- ([^\n]+)', s)`: the item texts of a dash block. -/
def findDashItems (s : Str) : List Str := findDashItemsAux s.length s

/-- The header capture `([^<]+):` followed by a literal starting with
`<`: the non-`<` run must end with a colon and the literal must follow
immediately.  Returns the header (group 1, without the colon). -/
def headerGroupAt (s : Str) : Option Str :=
  let r := s.takeWhile (fun c => c ≠ '<')
  if r.reverse.head? = some ':' ∧ 2 ≤ r.length then some (r.dropLast) else none

/-- The `\s*\n` atom: the greedy `\s*` backtracks until a literal
newline follows, so the match consumes the whitespace run up to and
including its last newline; it fails when the run has no newline.
Returns the number of characters consumed. -/
def wsThenNl (s : Str) : Option Nat :=
  let w := s.takeWhile isWs
  match (w.reverse.dropWhile (fun c => c ≠ '\n')).length with
  | 0 => none
  | k + 1 => some (k + 1)

/-- Candidate consumed lengths for `(?:- [^\n]+\n?)+` in the preference
order of the backtracking engine: inside one repetition the greedy
`[^\n]+` is longest first and `\n?` prefers taking the newline; the
greedy `+` prefers more repetitions before fewer. -/
def dashRepChoices (s : Str) : List Nat :=
  if "- ".toList.isPrefixOf s then
    let c := (s.drop 2).takeWhile (fun ch => ch ≠ '\n')
    if c = [] then []
    else
      let m := c.length
      let withNl := if (s.drop (2 + m)).head? = some '\n' then [2 + m + 1] else []
      withNl ++ ((List.range m).map (fun i => 2 + m - i))
  else []

/-- All candidate total lengths for the one-or-more repetition, DFS in
engine preference order (continue with further repetitions before
stopping). -/
def dashSeqChoicesAux : Nat → Str → List Nat
  | 0, _ => []
  | fuel + 1, s =>
    (dashRepChoices s).foldr
      (fun r acc =>
        ((dashSeqChoicesAux fuel (s.drop r)).map (r + ·)) ++ [r] ++ acc) []

/-- Candidate lengths of the dash-item block. -/
def dashSeqChoices (s : Str) : List Nat := dashSeqChoicesAux (s.length + 1) s

/-- First candidate length whose remainder satisfies the given
continuation test. -/
def firstChoiceWith (ok : Str → Bool) (s : Str) : List Nat → Option Nat
  | [] => none
  | k :: ks => if ok (s.drop k) then some k else firstChoiceWith ok s ks

/-- One match of broken-list pattern 1,
`<p><strong>([^<]+):</strong>\s*\n((?:- [^\n]+\n?)+)</p>`, at the head
of the string; returns (consumed, replacement). -/
def listPat1At (s : Str) : Option (Nat × Str) :=
  if "<p><strong>".toList.isPrefixOf s then
    match headerGroupAt (s.drop 11) with
    | none => none
    | some g =>
      let afterHdr := s.drop (11 + g.length + 1)
      if "</strong>".toList.isPrefixOf afterHdr then
        match wsThenNl (afterHdr.drop 9) with
        | none => none
        | some w =>
          let body := afterHdr.drop (9 + w)
          match firstChoiceWith (fun t => "</p>".toList.isPrefixOf t) body (dashSeqChoices body) with
          | none => none
          | some k =>
            let items := findDashItems (body.take k)
            let rep := "<p><strong>".toList ++ g ++ ":</strong></p>\n<ul>\n".toList ++
              (items.foldr (fun it acc => "  <li>".toList ++ pyStrip it ++ "</li>\n".toList ++ acc) []) ++
              "</ul>".toList
            some (11 + g.length + 1 + 9 + w + k + 4, rep)
      else none
  else none

/-- One match of broken-list pattern 2,
`(<p><strong>([^<]+):</strong></p>)\s*\n((?:- [^\n]+\n?)+)(?=\n\n|<p>|<h|<div)`,
at the head of the string. -/
def listPat2At (s : Str) : Option (Nat × Str) :=
  if "<p><strong>".toList.isPrefixOf s then
    match headerGroupAt (s.drop 11) with
    | none => none
    | some g =>
      let afterHdr := s.drop (11 + g.length + 1)
      if "</strong></p>".toList.isPrefixOf afterHdr then
        match wsThenNl (afterHdr.drop 13) with
        | none => none
        | some w =>
          let body := afterHdr.drop (13 + w)
          let look := fun (t : Str) =>
            "\n\n".toList.isPrefixOf t || "<p>".toList.isPrefixOf t ||
            "<h".toList.isPrefixOf t || "<div".toList.isPrefixOf t
          match firstChoiceWith look body (dashSeqChoices body) with
          | none => none
          | some k =>
            let items := findDashItems (body.take k)
            let hdrTag := "<p><strong>".toList ++ g ++ ":</strong></p>".toList
            let rep := hdrTag ++ "\n<ul>\n".toList ++
              (items.foldr (fun it acc => "  <li>".toList ++ pyStrip it ++ "</li>\n".toList ++ acc) []) ++
              "</ul>".toList
            some (11 + g.length + 1 + 13 + w + k, rep)
      else none
  else none

/-- Model of `_fix_broken_lists` (document_converter.py lines 103-160):
pattern 2 is applied first, pattern 1 second. -/
def fixBrokenLists (s : Str) : Str :=
  scanRep listPat1At (scanRep listPat2At s)

/-- A calendar date as produced by `datetime.strptime`. -/
structure PyDate where
  year : Nat
  month : Nat
  day : Nat
deriving DecidableEq, Repr

/-- Decimal digit value of a character. -/
def digit? (c : Char) : Option Nat :=
  if '0' ≤ c ∧ c ≤ '9' then some (c.toNat - 48) else none

/-- The `%Y` directive of `_strptime`: exactly four digits. -/
def parseY4 : Str → Option (Nat × Str)
  | a :: b :: c :: d :: rest =>
    match digit? a, digit? b, digit? c, digit? d with
    | some w, some x, some y, some z => some (w * 1000 + x * 100 + y * 10 + z, rest)
    | _, _, _, _ => none
  | _ => none

/-- The `%m` directive, regex `(1[0-2]|0[1-9]|[1-9])`: candidate
(value, remainder) pairs in alternation order, for backtracking against
the following literal. -/
def monthCands (s : Str) : List (Nat × Str) :=
  (match s with
   | '1' :: c :: rest =>
     match digit? c with
     | some d => if d ≤ 2 then [(10 + d, rest)] else []
     | none => []
   | _ => []) ++
  (match s with
   | '0' :: c :: rest =>
     match digit? c with
     | some d => if 1 ≤ d then [(d, rest)] else []
     | none => []
   | _ => []) ++
  (match s with
   | c :: rest =>
     match digit? c with
     | some d => if 1 ≤ d then [(d, rest)] else []
     | none => []
   | _ => [])

/-- The `%d` directive, regex `(3[01]|[12]\d|0[1-9]|[1-9])`: candidates
in alternation order. -/
def dayCands (s : Str) : List (Nat × Str) :=
  (match s with
   | '3' :: c :: rest =>
     match digit? c with
     | some d => if d ≤ 1 then [(30 + d, rest)] else []
     | none => []
   | _ => []) ++
  (match s with
   | a :: c :: rest =>
     match digit? a, digit? c with
     | some x, some d => if 1 ≤ x ∧ x ≤ 2 then [(10 * x + d, rest)] else []
     | _, _ => []
   | _ => []) ++
  (match s with
   | '0' :: c :: rest =>
     match digit? c with
     | some d => if 1 ≤ d then [(d, rest)] else []
     | none => []
   | _ => []) ++
  (match s with
   | c :: rest =>
     match digit? c with
     | some d => if 1 ≤ d then [(d, rest)] else []
     | none => []
   | _ => [])

/-- Gregorian leap-year rule used by `datetime`. -/
def isLeap (y : Nat) : Bool := y % 4 = 0 && (y % 100 ≠ 0 || y % 400 = 0)

/-- Days in a month, as validated by the `datetime` constructor. -/
def daysInMonth (y m : Nat) : Nat :=
  if m = 2 then (if isLeap y then 29 else 28)
  else if m = 4 ∨ m = 6 ∨ m = 9 ∨ m = 11 then 30
  else 31

/-- Validity check of the `datetime` constructor: year within
`MINYEAR..MAXYEAR` (the upper bound is automatic for four-digit years)
and day within the month. -/
def validDate (y m d : Nat) : Bool :=
  1 ≤ y && 1 ≤ d && d ≤ daysInMonth y m

/-- Pattern-only match of a (year, month, day) directive arrangement:
the directives with their separators, returning the first match in
backtracking order together with the unconsumed remainder.  The
trailing leftover does NOT drive backtracking, exactly as in
`_strptime`, which first matches the compiled regex and only then
rejects unconverted trailing data. -/
def matchYSepMSepD (sep : Char) (s : Str) : Option (Nat × Nat × Nat × Str) :=
  match parseY4 s with
  | none => none
  | some (y, r1) =>
    match r1 with
    | c :: r2 =>
      if c = sep then
        (monthCands r2).findSome? fun pm =>
          match pm.2 with
          | c2 :: r3 =>
            if c2 = sep then
              (dayCands r3).findSome? fun pd => some (y, pm.1, pd.1, pd.2)
            else none
          | [] => none
      else none
    | [] => none

/-- Pattern-only match for day-first formats `%d SEP %m SEP %Y`. -/
def matchDSepMSepY (sep : Char) (s : Str) : Option (Nat × Nat × Nat × Str) :=
  (dayCands s).findSome? fun pd =>
    match pd.2 with
    | c :: r1 =>
      if c = sep then
        (monthCands r1).findSome? fun pm =>
          match pm.2 with
          | c2 :: r2 =>
            if c2 = sep then
              (parseY4 r2).map (fun py => (py.1, pm.1, pd.1, py.2))
            else none
          | [] => none
      else none
    | [] => none

/-- Completion of `datetime.strptime`: the pattern must consume the
whole string and the date must be constructible. -/
def finishStrptime (r : Option (Nat × Nat × Nat × Str)) : Option PyDate :=
  match r with
  | some (y, m, d, []) => if validDate y m d then some ⟨y, m, d⟩ else none
  | _ => none

/-- `datetime.strptime(s, '%Y-%m-%d')`. -/
def strptimeYmd (s : Str) : Option PyDate := finishStrptime (matchYSepMSepD '-' s)

/-- `datetime.strptime(s, '%d.%m.%Y')`. -/
def strptimeDmyDot (s : Str) : Option PyDate := finishStrptime (matchDSepMSepY '.' s)

/-- `datetime.strptime(s, '%d/%m/%Y')`. -/
def strptimeDmySlash (s : Str) : Option PyDate := finishStrptime (matchDSepMSepY '/' s)

/-- `datetime.strptime(s, '%Y/%m/%d')` (used only by `format_date`). -/
def strptimeYmdSlash (s : Str) : Option PyDate := finishStrptime (matchYSepMSepD '/' s)

/-- The `for fmt in [...]` date loop of `markdown_to_docx` (lines
164-170): each iteration recomputes `date_str.split()[0]` inside the
bare `try`, so the IndexError of an all-whitespace string is swallowed
by `except: continue` like a parse failure; the first successful format
assigns `core_props.created` and breaks. -/
def tryFmtsFold : List (Str → Option PyDate) → Str → Option PyDate
  | [], _ => none
  | f :: fs, dateStr =>
    match (pySplitWs dateStr).head? with
    | none => tryFmtsFold fs dateStr
    | some tok =>
      match f tok with
      | some d => some d
      | none => tryFmtsFold fs dateStr

/-- The `created` property value computed from a date string by
`markdown_to_docx` (lines 158-172). -/
def setCreatedFromDate (dateStr : Str) : Option PyDate :=
  tryFmtsFold [strptimeYmd, strptimeDmyDot, strptimeDmySlash] dateStr

/-- The document metadata map: ordered keys; a value of `none` models
Python `None`, `some s` a string value. -/
abbrev Metadata := List (Str × Option Str)

/-- Python `key in metadata`. -/
def mHas (k : Str) (m : Metadata) : Bool := m.any (fun p => p.1 = k)

/-- Python `metadata.get(key)`: `None` both for an absent key and for a
stored `None`. -/
def pyGet (k : Str) (m : Metadata) : Option Str :=
  match m.find? (fun p => p.1 = k) with
  | some p => p.2
  | none => none

/-- Python truthiness of a `get` result. -/
def truthy (v : Option Str) : Bool :=
  match v with
  | some s => s ≠ []
  | none => false

/-- Python dict assignment: overwrite in place or append. -/
def minsert (k : Str) (v : Option Str) : Metadata → Metadata
  | [] => [(k, v)]
  | (k2, v2) :: rest => if k2 = k then (k, v) :: rest else (k2, v2) :: minsert k v rest

/-- A Python exception escaping a modelled function. -/
inductive PyExc where
  | indexError
deriving DecidableEq, Repr

/-- Zero-padded two-digit decimal. -/
def pad2 (n : Nat) : Str := if n < 10 then '0' :: Nat.toDigits 10 n else Nat.toDigits 10 n

/-- Four-digit year for `strftime('%Y')` on the years reachable here. -/
def pad4 (n : Nat) : Str :=
  if n < 10 then '0' :: '0' :: '0' :: Nat.toDigits 10 n
  else if n < 100 then '0' :: '0' :: Nat.toDigits 10 n
  else if n < 1000 then '0' :: Nat.toDigits 10 n
  else Nat.toDigits 10 n

/-- `strftime('%d.%m.%Y')`. -/
def fmtDmy (d : PyDate) : Str :=
  pad2 d.day ++ ['.'] ++ pad2 d.month ++ ['.'] ++ pad4 d.year

/-- The `date_part = date_str.split()[0] if ' ' in date_str else
date_str` idiom of `format_date`; the IndexError of an empty split is
only reachable for a whitespace-only string containing a space. -/
def datePartOf (s : Str) : Except PyExc Str :=
  if containsSub [' '] s then
    match (pySplitWs s).head? with
    | some t => .ok t
    | none => .error .indexError
  else .ok s

/-- Model of `DocumentConverter.format_date` (document_converter.py
lines 55-101) for string-valued input, which is all the html pipeline
passes it: the already-formatted shortcut, the ISO branch, the format
loop (whose `except` clauses do not catch the IndexError of
whitespace-only input), and the return-as-is fallback. -/
def formatDate (s : Str) : Except PyExc (Option Str) :=
  if s = [] then .ok none
  else
    let parts := splitOnChar '.' s
    if containsSub ['.'] s ∧ parts.length = 3 ∧
        (parts.headD []).length ≤ 2 ∧ ((parts.drop 1).headD []).length ≤ 2 ∧
        ((parts.drop 2).headD []).length = 4 then
      .ok (some s)
    else do
      let isoRes ← (if containsSub ['-'] s then
          do
            let dp ← datePartOf s
            pure (strptimeYmd dp)
        else pure none)
      match isoRes with
      | some d => pure (some (fmtDmy d))
      | none => do
        let r1 ← datePartOf s
        match strptimeYmd r1 with
        | some d => pure (some (fmtDmy d))
        | none => do
          let r2 ← datePartOf s
          match strptimeDmyDot r2 with
          | some d => pure (some (fmtDmy d))
          | none => do
            let r3 ← datePartOf s
            match strptimeDmySlash r3 with
            | some d => pure (some (fmtDmy d))
            | none => do
              let r4 ← datePartOf s
              match strptimeYmdSlash r4 with
              | some d => pure (some (fmtDmy d))
              | none => pure (some s)

instance {ε α : Type} [DecidableEq ε] [DecidableEq α] : DecidableEq (Except ε α)
  | .ok a, .ok b => decidable_of_iff (a = b) (by simp)
  | .error a, .error b => decidable_of_iff (a = b) (by simp)
  | .ok _, .error _ => isFalse (fun h => Except.noConfusion h)
  | .error _, .ok _ => isFalse (fun h => Except.noConfusion h)

/-- One conditional date-formatting write of `markdown_to_html` (lines
574-581): when the key is present in the copy, its formatted value is
assigned into the copy. -/
def fmtWrite (k : Str) (fm : Metadata) : Except PyExc Metadata :=
  if mHas k fm then
    (formatDate ((pyGet k fm).getD [])).map (fun v => minsert k v fm)
  else .ok fm

/-- The metadata flow of `markdown_to_html` (document_converter.py
lines 309-588): the function reads `content` and `metadata`, takes a
copy of the map (`metadata.copy()`), writes the four formatted dates
into that copy only, and renders from the copy.  The result is the
caller's map as the function leaves it, paired with the formatted
copy. -/
def markdownToHtmlMetaFlow (m : Metadata) : Except PyExc (Metadata × Metadata) := do
  let fm := m
  let fm ← fmtWrite "approved_date".toList fm
  let fm ← fmtWrite "effective_date".toList fm
  let fm ← fmtWrite "expiry_date".toList fm
  let fm ← fmtWrite "date".toList fm
  pure (m, fm)

/-- The document-property fields set by `markdown_to_docx`. -/
structure DocProps where
  title : Option Str
  author : Option Str
  created : Option PyDate
deriving DecidableEq, Repr

/-- Technical-data line `label: value` (lines 183-193). -/
def techLine (label : Str) (v : Option Str) : Str := label ++ v.getD []

/-- The metadata flow of `markdown_to_docx` (docx_converter.py lines
151-198): document properties and the technical-data block are computed
by reads only; the caller's map is returned as the function leaves
it. -/
def markdownToDocxMetaFlow (m : Metadata) : DocProps × List Str × Metadata :=
  let props : DocProps := ⟨none, none, none⟩
  let props := if truthy (pyGet "title".toList m) then
      { props with title := some ((pyGet "title".toList m).getD []) } else props
  let props := if truthy (pyGet "organization".toList m) then
      { props with author := some ((pyGet "organization".toList m).getD []) } else props
  let props := if truthy (pyGet "date".toList m) then
      { props with created := setCreatedFromDate ((pyGet "date".toList m).getD []) } else props
  let tech :=
    (if truthy (pyGet "organization".toList m) then
        [techLine "Организация: ".toList (pyGet "organization".toList m)] else []) ++
    (if truthy (pyGet "department".toList m) then
        [techLine "Отдел: ".toList (pyGet "department".toList m)] else []) ++
    (if truthy (pyGet "type".toList m) then
        [techLine "Тип документа: ".toList (pyGet "type".toList m)] else []) ++
    (if truthy (pyGet "number".toList m) then
        [techLine "Номер: ".toList (pyGet "number".toList m)] else []) ++
    (if truthy (pyGet "date".toList m) then
        [techLine "Дата: ".toList (pyGet "date".toList m)] else []) ++
    (if truthy (pyGet "status".toList m) then
        [techLine "Статус: ".toList (pyGet "status".toList m)] else [])
  (props, tech, m)

/-- Count of non-overlapping occurrences of a pattern. -/
def countSubAux (pat : Str) : Nat → Str → Nat
  | 0, _ => 0
  | _ + 1, [] => 0
  | fuel + 1, s@(_ :: rest) =>
    if pat ≠ [] ∧ pat.isPrefixOf s then countSubAux pat fuel (s.drop pat.length) + 1
    else countSubAux pat fuel rest

/-- Python `str.count`. -/
def countSub (pat s : Str) : Nat := countSubAux pat s.length s

/-- Modelled from the spec: the external Markdown renderer (markdown2
with the fenced-code-blocks, tables, header-ids and break-on-newline
extras; a third-party library, not part of this repository) renders the
single-line body of the round-trip scenario, `**Важно:** тест`, as one
paragraph holding a strong span. -/
def renderedImportant : Str := "<p><strong>Важно:</strong> тест</p>\n".toList

/-- Modelled from the spec: the same external Markdown renderer leaves
a bold label followed by dash lines inside one paragraph (the broken
shape that `_fix_broken_lists` exists to repair, quoted in its own
docstring). -/
def renderedAdvantages : Str :=
  "<p><strong>Преимущества:</strong>\n- Пункт 1\n- Пункт 2</p>\n".toList

/-- The heading rule of the element-tree path `_html_to_docx`
(docx_converter.py lines 248-252): `doc.add_heading(text,
level=min(level, 4))`.  That path is dead in the export pipeline:
`markdown_to_docx` (line 207) calls `_simple_html_parse` directly. -/
def htmlToDocxHeading (level : Nat) (text : Str) : Elem :=
  Elem.heading (min level 4) text

/-- The claim's reading of the date handling, following the words of
the specification: the formats are tried on the portion of the string
strictly before the first whitespace character. -/
def claimCreatedFromDate (dateStr : Str) : Option PyDate :=
  let t := dateStr.takeWhile (fun c => !isWs c)
  ((strptimeYmd t).orElse (fun _ => strptimeDmyDot t)).orElse (fun _ => strptimeDmySlash t)

example : pySplitWs " ab  cd ".toList = ["ab".toList, "cd".toList] := by decide
example : containsSub "th".toList "<td>Python</td>".toList = true := by decide
example : splitOnChar '\n' "a\n\nb".toList = ["a".toList, [], "b".toList] := by decide
example : pyStrip "  x ".toList = "x".toList := by decide

example : cleanup3 "__BOLD__AB __ITALIC__CD__/ITALIC____/BOLD__".toList = "AB ".toList := by decide
example : cleanFull "__BOLD____ITALIC____/ITALIC__ x__/BOLD__".toList = "ITALIC x".toList := by decide
example : cleanFull "__BOLD___ _ _ A__ITALIC__x__/ITALIC____/BOLD__".toList = "_ _ Ax".toList := by decide

example : addFormattedTextFromHtml "__BOLD__Важно:__/BOLD__ тест".toList =
    [⟨"Важно:".toList, true, false⟩, ⟨"тест".toList, false, false⟩] := by decide
example : addFormattedTextFromHtml "__BOLD__AB __ITALIC__CD__/ITALIC____/BOLD__".toList =
    [⟨"AB".toList, false, false⟩] := by decide
example : addFormattedTextFromHtml "__BOLD____ITALIC____/ITALIC__ x__/BOLD__".toList =
    [⟨"ITALIC x".toList, false, false⟩] := by decide
example : addFormattedTextFromHtml "__BOLD___ _ _ A__ITALIC__x__/ITALIC____/BOLD__".toList =
    [⟨"_ _ Ax".toList, false, false⟩] := by decide
example : addFormattedTextFromHtml "plain text".toList =
    [⟨"plain text".toList, false, false⟩] := by decide
example : addFormattedTextFromHtml "__ITALIC__ab__/ITALIC__".toList =
    [⟨"ab".toList, false, true⟩] := by decide

example : tokenizeHtml "<p><strong>Важно:</strong> тест</p>\n".toList =
    "__P____BOLD__Важно:__/BOLD__ тест__/P__\n".toList := by decide
example : tokenizeHtml "<h5>Тест</h5>\n".toList = "Тест\n".toList := by decide
example : tokenizeHtml "<h2>Раздел</h2>\n".toList = "__H2__Раздел__/H2__\n".toList := by decide
example : tokenizeHtml "<p><strong>AB <em>CD</em></strong></p>\n".toList =
    "__P____BOLD__AB __ITALIC__CD__/ITALIC____/BOLD____/P__\n".toList := by decide

example : renderTable "<table><tr><th>A</th><th>B</th></tr><tr><td>1</td></tr></table>".toList =
    some [[⟨"A".toList, true⟩, ⟨"B".toList, true⟩],
          [⟨"1".toList, false⟩, ⟨[], false⟩]] := by decide
example : renderTable "<table><tr></tr></table>".toList = none := by decide

example : simpleHtmlParse "<p><strong>Важно:</strong> тест</p>\n".toList =
    some [Elem.para [⟨"Важно:".toList, true, false⟩, ⟨"тест".toList, false, false⟩]] := by decide
example : simpleHtmlParse "<h5>Тест</h5>\n".toList =
    some [Elem.para [⟨"Тест".toList, false, false⟩]] := by decide
example : simpleHtmlParse "<h2>Раздел</h2>\n".toList =
    some [Elem.heading 2 "Раздел".toList] := by decide
example : simpleHtmlParse "<p><strong>AB <em>CD</em></strong></p>\n".toList =
    some [Elem.para [⟨"AB".toList, false, false⟩]] := by decide

set_option maxRecDepth 10000 in
example : simpleHtmlParse
    "<h1>Заголовок</h1>\n\n<p>абзац</p>\n\n\n<ul>\n<li>один</li>\n<li>два</li>\n</ul>\n\n<table><tr><th>A</th><th>B</th></tr><tr><td>Python</td></tr></table>\n".toList
    = none := by decide

set_option maxRecDepth 10000 in
example : simpleHtmlParse
    "<h2>X</h2>\n<table>\n<tr><th>A</th><th>B</th></tr>\n<tr><td>Python</td></tr>\n</table>\n<p>после</p>\n".toList
    = some [Elem.heading 2 "X".toList,
            Elem.table [[⟨"A".toList, true⟩, ⟨"B".toList, true⟩],
                        [⟨"Python".toList, true⟩, ⟨[], false⟩]],
            Elem.para [⟨"после".toList, false, false⟩]] := by decide

example : fixBrokenLists "<p><strong>Преимущества:</strong>\n- Пункт 1\n- Пункт 2</p>\n".toList =
    "<p><strong>Преимущества:</strong></p>\n<ul>\n  <li>Пункт 1</li>\n  <li>Пункт 2</li>\n</ul>\n".toList := by decide
example : fixBrokenLists "<p><strong>Плюсы:</strong></p>\n- a\n- b\n\n<p>x</p>".toList =
    "<p><strong>Плюсы:</strong></p>\n<ul>\n  <li>a</li>\n  <li>b</li>\n</ul>\n\n<p>x</p>".toList := by decide
example : fixBrokenLists "<p><strong>Плюсы:</strong></p>\n- a\n- b<p>t</p>".toList =
    "<p><strong>Плюсы:</strong></p>\n<ul>\n  <li>a</li>\n  <li>b</li>\n</ul><p>t</p>".toList := by decide
example : fixBrokenLists "<p><strong>A:B:</strong>\n- x</p>".toList =
    "<p><strong>A:B:</strong></p>\n<ul>\n  <li>x</li>\n</ul>".toList := by decide
example : fixBrokenLists "<p><strong>Плюсы:</strong></p>\n- a\n- b".toList =
    "<p><strong>Плюсы:</strong></p>\n- a\n- b".toList := by decide

example : strptimeYmd "2024-01-02".toList = some ⟨2024, 1, 2⟩ := by decide
example : strptimeYmd "2024-1-2".toList = some ⟨2024, 1, 2⟩ := by decide
example : strptimeYmd "2024-02-31".toList = none := by decide
example : strptimeYmd "2024-02-29".toList = some ⟨2024, 2, 29⟩ := by decide
example : strptimeYmd "2023-02-29".toList = none := by decide
example : strptimeYmd "0000-01-01".toList = none := by decide
example : strptimeYmd "2024-01-023".toList = none := by decide
example : strptimeDmyDot "05.03.2024".toList = some ⟨2024, 3, 5⟩ := by decide
example : strptimeDmyDot "2024-01-02".toList = none := by decide

example : setCreatedFromDate " 2024-01-02".toList = some ⟨2024, 1, 2⟩ := by decide
example : setCreatedFromDate "05.03.2024 10:00".toList = some ⟨2024, 3, 5⟩ := by decide
example : setCreatedFromDate "  ".toList = none := by decide
example : setCreatedFromDate "nonsense".toList = none := by decide

example : formatDate "2024-03-05".toList = .ok (some "05.03.2024".toList) := by decide
example : formatDate "05.03.2024".toList = .ok (some "05.03.2024".toList) := by decide
example : formatDate "garbage".toList = .ok (some "garbage".toList) := by decide
example : formatDate " ".toList = .error .indexError := by decide
example : formatDate "".toList = .ok none := by decide

/-- Claim C1, counterexample: on the rendered round-trip input the
pipeline does NOT emit the two runs the claim states, because the
second run loses its leading space: the segment cleanup ends with
`re.sub(r'\s+', ' ', ...).strip()`, which strips it. -/
theorem claim1_counterexample :
    simpleHtmlParse renderedImportant ≠
      some [Elem.para [⟨"Важно:".toList, true, false⟩, ⟨" тест".toList, false, false⟩]] := by
  decide

/-- Claim C1, amended: the pipeline emits exactly two runs in order,
`Важно:` with bold set and `тест` (leading space stripped by the
whitespace normalisation) with no formatting. -/
theorem claim1_theorem :
    simpleHtmlParse renderedImportant =
      some [Elem.para [⟨"Важно:".toList, true, false⟩, ⟨"тест".toList, false, false⟩]] := by
  decide

/-- Claim C2: the damaged-segment cleanup is supposed to delete every
sentinel fragment, but on the tokenizer output of `<p><b><i></i>
x</b></p>` (an empty italic nested in a bold span, nesting depth 2) the
greedy trailing `__+` of the first cleanup pattern swallows the leading
underscores of the following `__ITALIC__` sentinel, so the bare word
ITALIC survives every later pass and leaks into the visible run text
`ITALIC x`. -/
theorem claim2_theorem :
    simpleHtmlParse "<p><b><i></i> x</b></p>\n".toList =
      some [Elem.para [⟨"ITALIC x".toList, false, false⟩]] ∧
    containsSub "ITALIC".toList "ITALIC x".toList = true := by
  constructor
  · decide
  · decide

/-- Claim C3: visible text is dropped.  The well-formed nested input
`<p><strong>AB <em>CD</em></strong></p>` tokenizes to a bold segment
whose interior still holds italic sentinels, so the damaged-marker
branch runs the cascading cleanup over it; the cleanup patterns treat
the uppercase letters C and D as marker debris (they sit in the
`[A-Z_/]` class adjacent to sentinel underscores) and delete them: the
emitted runs spell only `AB`. -/
theorem claim3_theorem :
    simpleHtmlParse "<p><strong>AB <em>CD</em></strong></p>\n".toList =
      some [Elem.para [⟨"AB".toList, false, false⟩]] ∧
    containsSub "CD".toList "AB".toList = false := by
  constructor
  · decide
  · decide

/-- Claim C5: the list-repair pass turns the broken one-paragraph shape
into the bold label paragraph followed by a proper unordered list with
exactly two items, and no dash line survives. -/
theorem claim5_theorem :
    fixBrokenLists renderedAdvantages =
      "<p><strong>Преимущества:</strong></p>\n<ul>\n  <li>Пункт 1</li>\n  <li>Пункт 2</li>\n</ul>\n".toList ∧
    countSub "<li>".toList (fixBrokenLists renderedAdvantages) = 2 ∧
    containsSub "<ul>".toList (fixBrokenLists renderedAdvantages) = true ∧
    containsSub "\n- ".toList (fixBrokenLists renderedAdvantages) = false := by
  refine ⟨by decide, by decide, by decide, by decide⟩

/-- Claim C7, counterexample: `_simple_html_parse` (the path the export
pipeline actually uses) only rewrites `h1`-`h4`; an `h5` element has
its tags stripped by the generic-tag removal and its text becomes a
plain paragraph, not the claimed clamped level-4 heading. -/
theorem claim7_counterexample :
    simpleHtmlParse "<h5>Тест</h5>\n".toList =
      some [Elem.para [⟨"Тест".toList, false, false⟩]] ∧
    Elem.para [⟨"Тест".toList, false, false⟩] ≠ Elem.heading 4 "Тест".toList := by
  refine ⟨by decide, by decide⟩

/-- A false boolean condition refutes its coercion to a proposition. -/
theorem bool_cond_neg {b : Bool} (h : b = false) : ¬(b = true) := by
  rw [h]
  exact Bool.false_ne_true

/-- A string whose `strip` is empty consists of whitespace only. -/
theorem pyStrip_nil_ws {l : Str} (h : pyStrip l = []) : ∀ c ∈ l, isWs c = true := by
  unfold pyStrip at h
  rw [List.reverse_eq_nil_iff, List.dropWhile_eq_nil_iff] at h
  intro c hc
  have hsplit := List.takeWhile_append_dropWhile (p := isWs) (l := l)
  rw [← hsplit] at hc
  rcases List.mem_append.mp hc with hmem | hmem
  · exact List.mem_takeWhile_imp hmem
  · exact h c (List.mem_reverse.mpr hmem)

/-- A substring occurrence puts every pattern character into the
searched string. -/
theorem containsSub_subset {p : Str} : ∀ {s : Str}, containsSub p s = true → ∀ c ∈ p, c ∈ s := by
  intro s
  induction s with
  | nil =>
    intro h c hc
    unfold containsSub at h
    rw [List.isPrefixOf_iff_prefix] at h
    rw [List.prefix_nil.mp h] at hc
    cases hc
  | cons a rest ih =>
    intro h c hc
    unfold containsSub at h
    rw [Bool.or_eq_true] at h
    rcases h with h | h
    · rw [List.isPrefixOf_iff_prefix] at h
      exact h.sublist.subset hc
    · exact List.mem_cons_of_mem a (ih h c hc)

/-- A pattern holding a non-whitespace character never occurs inside a
whitespace-only string. -/
theorem containsSub_ws_false {p line : Str} (hws : ∀ c ∈ line, isWs c = true)
    (c0 : Char) (hc0 : c0 ∈ p) (hwsc : isWs c0 = false) : containsSub p line = false := by
  cases hcs : containsSub p line with
  | false => rfl
  | true =>
    have hmem := containsSub_subset hcs c0 hc0
    rw [hws c0 hmem] at hwsc
    cases hwsc

/-- Lowercasing keeps whitespace characters whitespace. -/
theorem lowerStr_ws {line : Str} (hws : ∀ c ∈ line, isWs c = true) :
    ∀ c ∈ lowerStr line, isWs c = true := by
  intro c hc
  unfold lowerStr at hc
  rcases List.mem_map.mp hc with ⟨a, ha, rfl⟩
  have hwa := hws a ha
  have : a = ' ' ∨ a = '\t' ∨ a = '\n' ∨ a = '\r' ∨ a = '\x0b' ∨ a = '\x0c' ∨ a = '\xa0' := by
    simpa [isWs, Bool.or_eq_true, decide_eq_true_eq, or_assoc] using hwa
  rcases this with rfl | rfl | rfl | rfl | rfl | rfl | rfl <;> decide


/-- Claim C7, amended: on the pipeline path in use, heading levels
above 4 are NOT clamped.  Universally over the token stream that the
tokenizer feeds to the assembler loop: every line carrying an h1-h4
heading marker (and no earlier-classified marker) yields a native
heading at the corresponding level exactly when its marker-stripped
text is non-empty, and no element at all when that text strips to
empty; every non-blank line carrying no marker and not starting with
two underscores — the form in which the text of an h5/h6 element
reaches the loop, since `_simple_html_parse` rewrites only h1-h4 and
the stray-tag removal deletes the h5/h6 tags — yields exactly one
plain (non-heading) paragraph; and a blank line yields nothing.  The
closed conjuncts ground this at the element level, including the
empty-text headings, and the final two show that the `min(level, 4)`
clamp lives only in the dead `_html_to_docx` path. -/
theorem claim7_theorem :
    (∀ (fuel : Nat) (rest : List Str) (st : LoopSt) (line : Str),
        (containsSub "__TABLE_".toList line
          || containsSub "<table".toList (lowerStr line)) = false →
        containsSub "__H1__".toList line = true →
        parseLines (fuel + 1) (line :: rest) st =
          (if headingText 1 line = [] then parseLines fuel rest st
           else (parseLines fuel rest { st with lastWasEmpty := false }).map
             (Elem.heading 1 (headingText 1 line) :: ·))) ∧
    (∀ (fuel : Nat) (rest : List Str) (st : LoopSt) (line : Str),
        (containsSub "__TABLE_".toList line
          || containsSub "<table".toList (lowerStr line)) = false →
        containsSub "__H1__".toList line = false →
        containsSub "__H2__".toList line = true →
        parseLines (fuel + 1) (line :: rest) st =
          (if headingText 2 line = [] then parseLines fuel rest st
           else (parseLines fuel rest { st with lastWasEmpty := false }).map
             (Elem.heading 2 (headingText 2 line) :: ·))) ∧
    (∀ (fuel : Nat) (rest : List Str) (st : LoopSt) (line : Str),
        (containsSub "__TABLE_".toList line
          || containsSub "<table".toList (lowerStr line)) = false →
        containsSub "__H1__".toList line = false →
        containsSub "__H2__".toList line = false →
        containsSub "__H3__".toList line = true →
        parseLines (fuel + 1) (line :: rest) st =
          (if headingText 3 line = [] then parseLines fuel rest st
           else (parseLines fuel rest { st with lastWasEmpty := false }).map
             (Elem.heading 3 (headingText 3 line) :: ·))) ∧
    (∀ (fuel : Nat) (rest : List Str) (st : LoopSt) (line : Str),
        (containsSub "__TABLE_".toList line
          || containsSub "<table".toList (lowerStr line)) = false →
        containsSub "__H1__".toList line = false →
        containsSub "__H2__".toList line = false →
        containsSub "__H3__".toList line = false →
        containsSub "__H4__".toList line = true →
        parseLines (fuel + 1) (line :: rest) st =
          (if headingText 4 line = [] then parseLines fuel rest st
           else (parseLines fuel rest { st with lastWasEmpty := false }).map
             (Elem.heading 4 (headingText 4 line) :: ·))) ∧
    (∀ (fuel : Nat) (rest : List Str) (st : LoopSt) (line : Str),
        (containsSub "__TABLE_".toList line
          || containsSub "<table".toList (lowerStr line)) = false →
        containsSub "__H1__".toList line = false →
        containsSub "__H2__".toList line = false →
        containsSub "__H3__".toList line = false →
        containsSub "__H4__".toList line = false →
        containsSub "__UL_START__".toList line = false →
        containsSub "__UL_END__".toList line = false →
        containsSub "__OL_END__".toList line = false →
        containsSub "__OL_START__".toList line = false →
        containsSub "__LI__".toList line = false →
        containsSub "__P__".toList line = false →
        pyStrip line ≠ [] →
        "__".toList.isPrefixOf line = false →
        parseLines (fuel + 1) (line :: rest) st =
          (parseLines fuel rest { st with lastWasEmpty := false }).map
            (Elem.para (addFormattedTextFromHtml (pyStrip line)) :: ·)) ∧
    (∀ (fuel : Nat) (rest : List Str) (st : LoopSt) (line : Str),
        pyStrip line = [] →
        parseLines (fuel + 1) (line :: rest) st = parseLines fuel rest (blankStep st)) ∧
    simpleHtmlParse "<h1>Тест</h1>\n".toList = some [Elem.heading 1 "Тест".toList] ∧
    simpleHtmlParse "<h2>Тест</h2>\n".toList = some [Elem.heading 2 "Тест".toList] ∧
    simpleHtmlParse "<h3>Тест</h3>\n".toList = some [Elem.heading 3 "Тест".toList] ∧
    simpleHtmlParse "<h4>Тест</h4>\n".toList = some [Elem.heading 4 "Тест".toList] ∧
    simpleHtmlParse "<h5>Тест</h5>\n".toList = some [Elem.para [⟨"Тест".toList, false, false⟩]] ∧
    simpleHtmlParse "<h6>Тест</h6>\n".toList = some [Elem.para [⟨"Тест".toList, false, false⟩]] ∧
    simpleHtmlParse "<h2>&nbsp;</h2>\n".toList = some [] ∧
    simpleHtmlParse "<h5>&nbsp;</h5>\n".toList = some [] ∧
    htmlToDocxHeading 5 "Тест".toList = Elem.heading 4 "Тест".toList ∧
    htmlToDocxHeading 6 "Тест".toList = Elem.heading 4 "Тест".toList := by
  refine ⟨?_, ?_, ?_, ?_, ?_, ?_, by decide, by decide, by decide, by decide, by decide,
    by decide, by decide, by decide, by decide, by decide⟩
  · intro fuel rest st line htab h1
    simp only [parseLines]
    rw [if_neg (bool_cond_neg htab), if_pos h1]
    by_cases ht : headingText 1 line = []
    · rw [if_pos ht, if_neg (not_not_intro ht)]
    · rw [if_neg ht, if_pos ht]
  · intro fuel rest st line htab hH1 h2
    simp only [parseLines]
    rw [if_neg (bool_cond_neg htab), if_neg (bool_cond_neg hH1), if_pos h2]
    by_cases ht : headingText 2 line = []
    · rw [if_pos ht, if_neg (not_not_intro ht)]
    · rw [if_neg ht, if_pos ht]
  · intro fuel rest st line htab hH1 hH2 h3
    simp only [parseLines]
    rw [if_neg (bool_cond_neg htab), if_neg (bool_cond_neg hH1), if_neg (bool_cond_neg hH2),
      if_pos h3]
    by_cases ht : headingText 3 line = []
    · rw [if_pos ht, if_neg (not_not_intro ht)]
    · rw [if_neg ht, if_pos ht]
  · intro fuel rest st line htab hH1 hH2 hH3 h4
    simp only [parseLines]
    rw [if_neg (bool_cond_neg htab), if_neg (bool_cond_neg hH1), if_neg (bool_cond_neg hH2),
      if_neg (bool_cond_neg hH3), if_pos h4]
    by_cases ht : headingText 4 line = []
    · rw [if_pos ht, if_neg (not_not_intro ht)]
    · rw [if_neg ht, if_pos ht]
  · intro fuel rest st line htab hH1 hH2 hH3 hH4 hUL hULe hOLe hOL hLI hP hne hpre
    simp only [parseLines]
    rw [if_neg (bool_cond_neg htab), if_neg (bool_cond_neg hH1), if_neg (bool_cond_neg hH2),
      if_neg (bool_cond_neg hH3), if_neg (bool_cond_neg hH4), if_neg (bool_cond_neg hUL)]
    rw [if_neg ?_, if_neg (bool_cond_neg hOL), if_neg (bool_cond_neg hLI),
      if_neg (bool_cond_neg hP), if_pos ⟨hne, bool_cond_neg hpre⟩]
    exact bool_cond_neg (by rw [hULe, hOLe]; rfl)
  · intro fuel rest st line h
    have hws := pyStrip_nil_ws h
    have hl := lowerStr_ws hws
    have c1 : containsSub "__TABLE_".toList line = false :=
      containsSub_ws_false hws '_' (by decide) (by decide)
    have c2 : containsSub "<table".toList (lowerStr line) = false :=
      containsSub_ws_false hl '<' (by decide) (by decide)
    have c3 : containsSub "__H1__".toList line = false :=
      containsSub_ws_false hws '_' (by decide) (by decide)
    have c4 : containsSub "__H2__".toList line = false :=
      containsSub_ws_false hws '_' (by decide) (by decide)
    have c5 : containsSub "__H3__".toList line = false :=
      containsSub_ws_false hws '_' (by decide) (by decide)
    have c6 : containsSub "__H4__".toList line = false :=
      containsSub_ws_false hws '_' (by decide) (by decide)
    have c7 : containsSub "__UL_START__".toList line = false :=
      containsSub_ws_false hws '_' (by decide) (by decide)
    have c8 : containsSub "__UL_END__".toList line = false :=
      containsSub_ws_false hws '_' (by decide) (by decide)
    have c9 : containsSub "__OL_END__".toList line = false :=
      containsSub_ws_false hws '_' (by decide) (by decide)
    have c10 : containsSub "__OL_START__".toList line = false :=
      containsSub_ws_false hws '_' (by decide) (by decide)
    have c11 : containsSub "__LI__".toList line = false :=
      containsSub_ws_false hws '_' (by decide) (by decide)
    have c12 : containsSub "__P__".toList line = false :=
      containsSub_ws_false hws '_' (by decide) (by decide)
    simp only [parseLines, c1, c2, c3, c4, c5, c6, c7, c8, c9, c10, c11, c12, h,
      Bool.or_self, Bool.false_or, Bool.or_false, if_false, ite_false, ne_eq,
      not_true_eq_false, false_and, if_true, ite_true, Bool.false_eq_true]

/-- Claim C7, witness: the heading rule applied to the concrete token
line of an h2 element with non-empty text. -/
theorem claim7_witness :
    parseLines 2 ["__H2__Раздел__/H2__".toList, []] ⟨false, none, false⟩ =
      (if headingText 2 "__H2__Раздел__/H2__".toList = [] then
         parseLines 1 [[]] ⟨false, none, false⟩
       else (parseLines 1 [[]]
           { (⟨false, none, false⟩ : LoopSt) with lastWasEmpty := false }).map
         (Elem.heading 2 (headingText 2 "__H2__Раздел__/H2__".toList) :: ·)) :=
  claim7_theorem.2.1 1 [[]] ⟨false, none, false⟩ "__H2__Раздел__/H2__".toList
    (by decide) (by decide) (by decide)

/-- Claim C6, counterexample: for `metadata['date'] = " 2024-01-02"`
the portion before the first whitespace is empty, so under the claim no
format parses and the property stays unset; the code instead parses the
first `str.split()` token (leading whitespace skipped) and sets the
property to 2024-01-02. -/
theorem claim6_counterexample :
    setCreatedFromDate " 2024-01-02".toList = some ⟨2024, 1, 2⟩ ∧
    claimCreatedFromDate " 2024-01-02".toList = none := by
  refine ⟨by decide, by decide⟩

/-- Claim C6, amended: the date handling is total (the bare excepts
swallow both parse failures and the IndexError of a whitespace-only
string, so nothing escapes), the three formats are tried in the fixed
source order on the FIRST WHITESPACE-SEPARATED TOKEN of the string
(leading whitespace skipped, unlike the claimed portion before the
first whitespace), the first success wins, and total failure leaves the
property unset (`none`). -/
theorem claim6_theorem :
    ∀ dateStr : Str,
      setCreatedFromDate dateStr =
        match (pySplitWs dateStr).head? with
        | none => none
        | some tok =>
          ((strptimeYmd tok).orElse (fun _ => strptimeDmyDot tok)).orElse
            (fun _ => strptimeDmySlash tok) := by
  intro s
  cases h : (pySplitWs s).head? with
  | none => simp [setCreatedFromDate, tryFmtsFold, h]
  | some tok =>
    cases h1 : strptimeYmd tok <;> cases h2 : strptimeDmyDot tok <;>
      cases h3 : strptimeDmySlash tok <;>
      simp [setCreatedFromDate, tryFmtsFold, h, h1, h2, h3, Option.orElse]

/-- Claim C9: neither conversion writes to the caller's metadata map.
`markdown_to_docx` computes the document properties and the
technical-data block by reads alone and leaves the map exactly as it
was; `markdown_to_html` first takes `metadata.copy()` and directs the
four date-formatting writes at that copy, so whenever it returns (the
whitespace-only-date IndexError propagates without writing anything)
the caller's map is unchanged.  Python strings are immutable, so the
content string cannot be mutated at all. -/
theorem claim9_theorem :
    ∀ m : Metadata,
      (markdownToDocxMetaFlow m).2.2 = m ∧
      ∀ r, markdownToHtmlMetaFlow m = Except.ok r → r.1 = m := by
  intro m
  refine ⟨rfl, ?_⟩
  intro r h
  unfold markdownToHtmlMetaFlow at h
  dsimp only at h
  cases h1 : fmtWrite "approved_date".toList m with
  | error e =>
    rw [h1] at h
    simp only [Except.instMonad, Except.bind] at h
    exact Except.noConfusion h
  | ok fm1 =>
    rw [h1] at h
    simp only [Except.instMonad, Except.bind] at h
    cases h2 : fmtWrite "effective_date".toList fm1 with
    | error e =>
      rw [h2] at h
      simp only [Except.instMonad, Except.bind] at h
      exact Except.noConfusion h
    | ok fm2 =>
      rw [h2] at h
      simp only [Except.instMonad, Except.bind] at h
      cases h3 : fmtWrite "expiry_date".toList fm2 with
      | error e =>
        rw [h3] at h
        simp only [Except.instMonad, Except.bind] at h
        exact Except.noConfusion h
      | ok fm3 =>
        rw [h3] at h
        simp only [Except.instMonad, Except.bind] at h
        cases h4 : fmtWrite "date".toList fm3 with
        | error e =>
          rw [h4] at h
          simp only [Functor.map, Except.map] at h
          exact Except.noConfusion h
        | ok fm4 =>
          rw [h4] at h
          simp only [Functor.map, Except.map, Except.pure, Except.ok.injEq] at h
          rw [← h]

/-- Claim C4: the blank-line branch of the line loop emits NOTHING — it
only records the blank in `last_was_empty` (and only outside lists);
the source has no `add_paragraph` call in that branch.  Hence every
maximal run of consecutive blank lines yields at most one (in fact
zero) blank separator paragraph, and inside a list blank lines yield no
paragraph at all: processing a blank line equals processing the rest
with the updated flag.  The closed conjunct illustrates a run of three
blank lines collapsing to nothing between two paragraphs. -/
theorem claim4_theorem :
    (∀ (fuel : Nat) (rest : List Str) (st : LoopSt) (line : Str),
        pyStrip line = [] →
        parseLines (fuel + 1) (line :: rest) st = parseLines fuel rest (blankStep st)) ∧
    simpleHtmlParse "<p>a</p>\n\n\n\n<p>b</p>\n".toList =
      some [Elem.para [⟨"a".toList, false, false⟩], Elem.para [⟨"b".toList, false, false⟩]] := by
  constructor
  · intro fuel rest st line h
    have hws := pyStrip_nil_ws h
    have hl := lowerStr_ws hws
    have c1 : containsSub "__TABLE_".toList line = false :=
      containsSub_ws_false hws '_' (by decide) (by decide)
    have c2 : containsSub "<table".toList (lowerStr line) = false :=
      containsSub_ws_false hl '<' (by decide) (by decide)
    have c3 : containsSub "__H1__".toList line = false :=
      containsSub_ws_false hws '_' (by decide) (by decide)
    have c4 : containsSub "__H2__".toList line = false :=
      containsSub_ws_false hws '_' (by decide) (by decide)
    have c5 : containsSub "__H3__".toList line = false :=
      containsSub_ws_false hws '_' (by decide) (by decide)
    have c6 : containsSub "__H4__".toList line = false :=
      containsSub_ws_false hws '_' (by decide) (by decide)
    have c7 : containsSub "__UL_START__".toList line = false :=
      containsSub_ws_false hws '_' (by decide) (by decide)
    have c8 : containsSub "__UL_END__".toList line = false :=
      containsSub_ws_false hws '_' (by decide) (by decide)
    have c9 : containsSub "__OL_END__".toList line = false :=
      containsSub_ws_false hws '_' (by decide) (by decide)
    have c10 : containsSub "__OL_START__".toList line = false :=
      containsSub_ws_false hws '_' (by decide) (by decide)
    have c11 : containsSub "__LI__".toList line = false :=
      containsSub_ws_false hws '_' (by decide) (by decide)
    have c12 : containsSub "__P__".toList line = false :=
      containsSub_ws_false hws '_' (by decide) (by decide)
    simp only [parseLines, c1, c2, c3, c4, c5, c6, c7, c8, c9, c10, c11, c12, h,
      Bool.or_self, Bool.false_or, Bool.or_false, if_false, ite_false, ne_eq,
      not_true_eq_false, false_and, if_true, ite_true, Bool.false_eq_true]
  · decide

/-- Claim C4, witness: a concrete blank line (one space) outside a list
is processed by the loop without emitting any element. -/
theorem claim4_witness :
    parseLines 2 [[' '], []] ⟨false, none, false⟩ =
      parseLines 1 [[]] (blankStep ⟨false, none, false⟩) :=
  claim4_theorem.1 1 [[]] ⟨false, none, false⟩ [' '] (by decide)

/-- Claim C8: the two-header table renders to two columns with the
second row padded by an untouched empty cell and every assigned cell of
the first row bolded; and any table whose rows yield a maximum column
count of zero produces no table object at all (the source returns
before `doc.add_table`). -/
theorem claim8_theorem :
    renderTable "<table><tr><th>A</th><th>B</th></tr><tr><td>1</td></tr></table>".toList =
      some [[⟨"A".toList, true⟩, ⟨"B".toList, true⟩],
            [⟨"1".toList, false⟩, ⟨[], false⟩]] ∧
    ∀ tableHtml : Str, maxColsOf tableHtml = 0 → renderTable tableHtml = none := by
  constructor
  · decide
  · intro t h
    unfold renderTable
    rw [h]
    simp

/-- Claim C8, witness: a table with one empty row has zero columns and
adds nothing. -/
theorem claim8_witness : renderTable "<table><tr></tr></table>".toList = none :=
  claim8_theorem.2 "<table><tr></tr></table>".toList (by decide)

/-- `getD` through `map` below the length. -/
theorem getD_map_lt {α β : Type} (f : α → β) (d' : α) :
    ∀ (l : List α) (j : Nat), j < l.length → ∀ d : β, (l.map f).getD j d = f (l.getD j d') := by
  intro l
  induction l with
  | nil => intro j hj; simp at hj
  | cons a rest ih =>
    intro j hj d
    cases j with
    | zero => simp [List.getD_cons_zero]
    | succ n =>
      simp only [List.map_cons, List.getD_cons_succ]
      exact ih n (by simpa using hj) d

/-- Claim C10: in `_parse_table_html` a row is rendered bold exactly
when the raw inner html of its `tr` contains the substring `th`
case-insensitively — a plain substring test, satisfied also by cell
TEXT such as the word Python — or when it is the first row.  The first
conjunct states it for every table and every assigned cell; the second
shows the concrete data row `<td>Python</td>` (no `th` tag) rendered
bold. -/
theorem claim10_theorem :
    (∀ (tableHtml : Str) (grid : List (List TCell)) (i : Nat) (row : Str),
        renderTable tableHtml = some grid →
        (parseTableRows tableHtml)[i]? = some row →
        grid[i]? = some (renderRow (maxColsOf tableHtml) i (rowCells row) (rowIsHeader row)) ∧
        ∀ j : Nat, j < ((rowCells row).take (maxColsOf tableHtml)).length →
          ((renderRow (maxColsOf tableHtml) i (rowCells row) (rowIsHeader row)).getD j
              ⟨[], false⟩).boldApplied =
            (rowIsHeader row || decide (i = 0))) ∧
    renderTable "<table><tr><th>A</th><th>B</th></tr><tr><td>Python</td></tr></table>".toList =
      some [[⟨"A".toList, true⟩, ⟨"B".toList, true⟩],
            [⟨"Python".toList, true⟩, ⟨[], false⟩]] := by
  constructor
  · intro t grid i row hg hrow
    constructor
    · unfold renderTable at hg
      by_cases h1 : parseTableRows t = []
      · rw [if_pos h1] at hg; cases hg
      · rw [if_neg h1] at hg
        by_cases h2 : maxColsOf t = 0
        · rw [if_pos h2] at hg; cases hg
        · rw [if_neg h2] at hg
          have hg2 := Option.some.inj hg
          rw [← hg2]
          rw [List.getElem?_map, List.getElem?_enum]
          unfold tableData
          rw [List.getElem?_map, hrow]
          rfl
    · intro j hj
      unfold renderRow
      rw [List.getD_append _ _ _ _ (by simpa using hj)]
      rw [getD_map_lt _ [] _ _ (by simpa using hj)]
  · decide

/-- Claim C10, witness: the general bold rule applied to the concrete
table at row 1 (the `<td>Python</td>` row) and cell 0 yields the header
flag of the substring heuristic. -/
theorem claim10_witness :
    (([[⟨"A".toList, true⟩, ⟨"B".toList, true⟩],
       [⟨"Python".toList, true⟩, ⟨[], false⟩]] :
        List (List TCell))[1]? =
      some (renderRow
        (maxColsOf "<table><tr><th>A</th><th>B</th></tr><tr><td>Python</td></tr></table>".toList)
        1 (rowCells "<td>Python</td>".toList) (rowIsHeader "<td>Python</td>".toList))) :=
  (claim10_theorem.1
    "<table><tr><th>A</th><th>B</th></tr><tr><td>Python</td></tr></table>".toList
    _ 1 "<td>Python</td>".toList (by decide) (by decide)).1

/-- Claim C6, witness: the amended statement applied to a concrete date
carrying a time suffix. -/
theorem claim6_witness :
    setCreatedFromDate "2024-01-02 10:00".toList =
      match (pySplitWs "2024-01-02 10:00".toList).head? with
      | none => none
      | some tok =>
        ((strptimeYmd tok).orElse (fun _ => strptimeDmyDot tok)).orElse
          (fun _ => strptimeDmySlash tok) :=
  claim6_theorem "2024-01-02 10:00".toList

/-- Claim C9, witness: a concrete map with a date passes through both
flows unchanged while the html path formats the date only in its
copy. -/
theorem claim9_witness :
    ((markdownToDocxMetaFlow [("date".toList, some "2024-03-05".toList)]).2.2 =
      [("date".toList, some "2024-03-05".toList)]) ∧
    (([("date".toList, some "2024-03-05".toList)],
      [("date".toList, some "05.03.2024".toList)]) : Metadata × Metadata).1 =
      [("date".toList, some "2024-03-05".toList)] :=
  ⟨(claim9_theorem [("date".toList, some "2024-03-05".toList)]).1,
   (claim9_theorem [("date".toList, some "2024-03-05".toList)]).2
     ([("date".toList, some "2024-03-05".toList)],
      [("date".toList, some "05.03.2024".toList)]) (by decide)⟩

